import Mathlib

/-
Verification of common/exechelp-posix.c (GnuPG POSIX exec helpers).

Shallow embedding: each C function relevant to the verified claims is
transliterated into a Lean definition.  Operating-system effects (waitpid
results, fork/access outcomes, allocation success) are passed in explicitly
as parameters or event traces; machine integers are modelled as Int/Nat with
the sentinel value -1 kept as in the C code.
-/

set_option autoImplicit false

namespace Exechelp

/-- Error codes of libgpg-error as used by this module.  Codes derived from
errno via gpg_err_code_from_syserror are kept abstract in the sysErr
constructor (gpg_err_code_from_syserror never yields 0: for errno 0 it
returns GPG_ERR_MISSING_ERRNO). -/
inductive ErrCode where
  | ok
  | general
  | timeout
  | configuration
  | invValue
  | invFlag
  | bug
  | sysErr (errno : Nat)
  deriving DecidableEq, Repr

/- ------------------------------------------------------------------
   Bulk Closer: close_all_fds (exechelp-posix.c lines 190-223).

   The C function scans fd = first .. max_fd-1.  For each fd it scans the
   ascending, -1 terminated exception array starting at the moving cursor
   except_start; on a match the cursor is advanced just past the matched
   entry and the descriptor is kept open, otherwise the descriptor is
   closed.  We model the exception array as the list of its entries before
   the -1 terminator, the cursor as the remaining suffix of that list, and
   return the list of descriptors that get closed.  get_max_fds depends on
   the OS state, so max_fd is a parameter.
   ------------------------------------------------------------------ -/

/-- Inner scan of close_all_fds: scan the remaining exception entries for
fd.  On a match, return the suffix just after the matched entry (the C code
sets except_start = i + 1); otherwise return none (cursor unchanged, the
descriptor will be closed). -/
def scanExcept (fd : Nat) : List Nat → Option (List Nat)
  | [] => none
  | e :: es => if e = fd then some es else scanExcept fd es

/-- Outer loop of close_all_fds over fd = first, first+1, ... with fuel
max_fd - first, threading the exception-list cursor; returns the closed
descriptors in ascending order. -/
def closeLoop : List Nat → Nat → Nat → List Nat
  | _, _, 0 => []
  | excl, fd, fuel + 1 =>
    match scanExcept fd excl with
    | some rest => closeLoop rest (fd + 1) fuel
    | none => fd :: closeLoop excl (fd + 1) fuel

/-- Model of close_all_fds: returns the list of descriptors the call
closes.  The except argument is none for a NULL exception array, otherwise
the entries before the -1 terminator. -/
def close_all_fds (first max_fd : Nat) (except : Option (List Nat)) : List Nat :=
  match except with
  | some excl => closeLoop excl first (max_fd - first)
  | none => List.range' first (max_fd - first)

theorem scanExcept_eq_none_iff (fd : Nat) :
    ∀ l : List Nat, scanExcept fd l = none ↔ fd ∉ l := by
  intro l
  induction l with
  | nil => simp [scanExcept]
  | cons e es ih =>
    by_cases h : e = fd
    · subst h; simp [scanExcept]
    · simp [scanExcept, h, ih, Ne.symm h]

theorem scanExcept_sorted_mem (fd : Nat) :
    ∀ (l rest : List Nat), l.Sorted (· < ·) → scanExcept fd l = some rest →
      rest.Sorted (· < ·) ∧ ∀ g, fd < g → (g ∈ rest ↔ g ∈ l) := by
  intro l
  induction l with
  | nil => intro rest _ h; simp [scanExcept] at h
  | cons e es ih =>
    intro rest hs hscan
    by_cases h : e = fd
    · subst h
      simp [scanExcept] at hscan
      subst hscan
      refine ⟨hs.of_cons, ?_⟩
      intro g hg
      simp only [List.mem_cons]
      constructor
      · intro hm; exact Or.inr hm
      · rintro (rfl | hm)
        · exact absurd hg (lt_irrefl g)
        · exact hm
    · simp only [scanExcept, if_neg h] at hscan
      obtain ⟨hrest, hmem⟩ := ih rest hs.of_cons hscan
      rcases List.sorted_cons.mp hs with ⟨helt, hes⟩
      have hefd : e < fd := by
        -- the matched entry fd is in es, and e is below every entry of es
        have hfd_mem : fd ∈ es := by
          by_contra hni
          rw [← scanExcept_eq_none_iff fd es] at hni
          rw [hni] at hscan
          exact Option.noConfusion hscan
        exact helt fd hfd_mem
      constructor
      · exact hrest
      · intro g hg
        rw [hmem g hg]
        simp only [List.mem_cons]
        constructor
        · intro hm; exact Or.inr hm
        · rintro (rfl | hm)
          · exact absurd (hefd.trans hg) (lt_irrefl _)
          · exact hm

theorem closeLoop_mem :
    ∀ (fuel fd : Nat) (l : List Nat), l.Sorted (· < ·) →
      ∀ g, g ∈ closeLoop l fd fuel ↔ (fd ≤ g ∧ g < fd + fuel ∧ g ∉ l) := by
  intro fuel
  induction fuel with
  | zero =>
    intro fd l _ g
    constructor
    · intro h; simp [closeLoop] at h
    · rintro ⟨h1, h2, _⟩; exact absurd h2 (by omega)
  | succ n ih =>
    intro fd l hs g
    cases hscan : scanExcept fd l with
    | some rest =>
      obtain ⟨hrest, hmem⟩ := scanExcept_sorted_mem fd l rest hs hscan
      have hfdl : fd ∈ l := by
        by_contra hni
        rw [← scanExcept_eq_none_iff fd l] at hni
        rw [hni] at hscan; exact Option.noConfusion hscan
      simp only [closeLoop, hscan]
      rw [ih (fd + 1) rest hrest g]
      constructor
      · rintro ⟨h1, h2, h3⟩
        refine ⟨Nat.le_of_succ_le h1, by omega, ?_⟩
        intro hgl
        exact h3 ((hmem g (by omega)).mpr hgl)
      · rintro ⟨h1, h2, h3⟩
        have hne : g ≠ fd := fun h => h3 (h ▸ hfdl)
        refine ⟨by omega, by omega, ?_⟩
        intro hgr
        exact h3 ((hmem g (by omega)).mp hgr)
    | none =>
      have hni : fd ∉ l := (scanExcept_eq_none_iff fd l).mp hscan
      simp only [closeLoop, hscan, List.mem_cons]
      rw [ih (fd + 1) l hs g]
      constructor
      · rintro (rfl | ⟨h1, h2, h3⟩)
        · exact ⟨Nat.le_refl _, by omega, hni⟩
        · exact ⟨by omega, by omega, h3⟩
      · rintro ⟨h1, h2, h3⟩
        by_cases hgfd : g = fd
        · exact Or.inl hgfd
        · exact Or.inr ⟨by omega, by omega, h3⟩

/-- C5: close_all_fds with an ascending exception list E closes exactly the
descriptors in the interval from first (inclusive) to max_fd (exclusive)
that are not members of E; every member of E stays open; with a NULL
exception list every descriptor in that interval is closed. -/
theorem close_all_fds_spec (first max_fd : Nat) (E : List Nat)
    (hE : E.Sorted (· < ·)) :
    (∀ g, g ∈ close_all_fds first max_fd (some E) ↔
      (first ≤ g ∧ g < max_fd ∧ g ∉ E)) ∧
    (∀ g, g ∈ E → g ∉ close_all_fds first max_fd (some E)) ∧
    (∀ g, g ∈ close_all_fds first max_fd none ↔ (first ≤ g ∧ g < max_fd)) := by
  have hmain : ∀ g, g ∈ close_all_fds first max_fd (some E) ↔
      (first ≤ g ∧ g < max_fd ∧ g ∉ E) := by
    intro g
    unfold close_all_fds
    rw [closeLoop_mem (max_fd - first) first E hE g]
    constructor <;> rintro ⟨h1, h2, h3⟩ <;> exact ⟨h1, by omega, h3⟩
  refine ⟨hmain, ?_, ?_⟩
  · intro g hgE hgc
    exact ((hmain g).mp hgc).2.2 hgE
  · intro g
    unfold close_all_fds
    rw [List.mem_range'_1]
    omega

/-- Witness for close_all_fds_spec at first = 3, max_fd = 8, E = [5, 7]:
descriptor 6 is closed exactly because it lies in the range and is not in
the exception list. -/
theorem close_all_fds_spec_witness :
    (6 ∈ close_all_fds 3 8 (some [5, 7]) ↔ (3 ≤ 6 ∧ 6 < 8 ∧ 6 ∉ [5, 7])) ∧
    (5 ∈ [5, 7] → 5 ∉ close_all_fds 3 8 (some [5, 7])) :=
  ⟨(close_all_fds_spec 3 8 [5, 7] (by decide)).1 6,
   (close_all_fds_spec 3 8 [5, 7] (by decide)).2.1 5⟩

/- ------------------------------------------------------------------
   Descriptor Census: get_all_open_fds (exechelp-posix.c lines 232-273).

   The growth statement in the loop body is
       narray += (narray < 256)? 32:256;
   starting from narray = 32.  The probe result for each candidate fd
   (fstat not failing with EBADF) is the parameter openFds, the success of
   each calloc/realloc request is the parameter allocOk (indexed by the
   requested capacity), and max_fd is the get_max_fds result.
   ------------------------------------------------------------------ -/

/-- Capacity update of get_all_open_fds, transliterated from
narray += (narray < 256)? 32:256. -/
def grow_narray (narray : Nat) : Nat :=
  narray + (if narray < 256 then 32 else 256)

/-- Successive capacities of the get_all_open_fds output buffer: the
initial calloc capacity is 32, every later capacity is obtained by
grow_narray. -/
def caps : Nat → Nat
  | 0 => 32
  | k + 1 => grow_narray (caps k)

/-- Scan loop of get_all_open_fds, with fuel max_fd - fd.  Arguments after
the two oracles: fuel, fd, idx, narray, accumulated entries (reversed).
Returns the collected fd list and the final capacity, or none when a
reallocation fails (the C code frees the array and returns NULL with errno
set by the allocator). -/
def gaofLoop (openFds : Nat → Bool) (allocOk : Nat → Bool) :
    Nat → Nat → Nat → Nat → List Nat → Option (List Nat × Nat)
  | 0, _, _, narray, acc => some (acc.reverse, narray)
  | fuel + 1, fd, idx, narray, acc =>
    if openFds fd then
      if idx + 1 ≥ narray then
        let narray2 := grow_narray narray
        if allocOk narray2 then
          gaofLoop openFds allocOk fuel (fd + 1) (idx + 1) narray2 (fd :: acc)
        else
          none
      else
        gaofLoop openFds allocOk fuel (fd + 1) (idx + 1) narray (fd :: acc)
    else
      gaofLoop openFds allocOk fuel (fd + 1) idx narray acc

/-- Model of get_all_open_fds (HAVE_STAT branch): probes fd = 0 .. max_fd-1
and collects the open ones, growing the buffer as in the source; none when
the initial calloc of 32 entries or any later realloc fails. -/
def get_all_open_fds (openFds : Nat → Bool) (max_fd : Nat)
    (allocOk : Nat → Bool) : Option (List Nat × Nat) :=
  if allocOk 32 then gaofLoop openFds allocOk max_fd 0 0 32 []
  else none

theorem caps_seven : caps 7 = 256 := by decide

theorem caps_seven_add : ∀ j : Nat, caps (7 + j) = 256 * (j + 1) := by
  intro j
  induction j with
  | zero => decide
  | succ n ih =>
    have : 7 + (n + 1) = (7 + n) + 1 := by omega
    rw [this]
    show grow_narray (caps (7 + n)) = 256 * (n + 1 + 1)
    rw [ih]
    unfold grow_narray
    have hge : ¬ (256 * (n + 1) < 256) := by
      have : 256 * 1 ≤ 256 * (n + 1) := Nat.mul_le_mul_left 256 (by omega)
      omega
    rw [if_neg hge]
    ring

/-- C6 counterexample: the capacity sequence of get_all_open_fds does not
grow geometrically.  There is no ratio num/den greater than one such that
every successive capacity is at least that ratio times the previous one:
past 256 the growth is by a fixed additive step of 256, so the successive
ratios tend to 1. -/
theorem get_all_open_fds_growth_not_geometric :
    ¬ ∃ num den : Nat, 0 < den ∧ den < num ∧
      ∀ k, num * caps k ≤ den * caps (k + 1) := by
  rintro ⟨num, den, hden, hlt, hall⟩
  have h := hall (7 + den)
  have h1 : caps (7 + den) = 256 * (den + 1) := caps_seven_add den
  have h2 : caps (7 + den + 1) = 256 * (den + 2) := by
    have : 7 + den + 1 = 7 + (den + 1) := by omega
    rw [this, caps_seven_add]
  rw [h1, h2] at h
  have hnum : den + 1 ≤ num := hlt
  nlinarith [h, hnum, hden]

theorem gaofLoop_growth_alloc_fail (openFds allocOk : Nat → Bool) :
    ∀ (fuel fd idx narray : Nat) (acc : List Nat),
      allocOk (grow_narray narray) = false → idx + 1 ≤ narray →
      narray - idx ≤ List.countP openFds (List.range' fd fuel) →
      gaofLoop openFds allocOk fuel fd idx narray acc = none := by
  intro fuel
  induction fuel with
  | zero =>
    intro fd idx narray acc hfail hidx hcount
    simp only [List.range', List.countP_nil] at hcount
    omega
  | succ n ih =>
    intro fd idx narray acc hfail hidx hcount
    rw [List.range'_succ, List.countP_cons] at hcount
    by_cases hopen : openFds fd = true
    · by_cases hge : idx + 1 ≥ narray
      · simp only [gaofLoop, hopen, if_true, if_pos hge, hfail,
          Bool.false_eq_true, if_false]
      · simp only [gaofLoop, hopen, if_true, if_neg hge]
        apply ih (fd + 1) (idx + 1) narray (fd :: acc) hfail (by omega)
        simp only [hopen, if_pos] at hcount
        omega
    · have hopen2 : openFds fd = false := by
        cases h : openFds fd
        · rfl
        · exact absurd h hopen
      simp only [gaofLoop, hopen2, Bool.false_eq_true, if_false]
      apply ih (fd + 1) idx narray acc hfail hidx
      simp only [hopen2, Bool.false_eq_true, if_false] at hcount
      omega

/-- C6 amended: whenever get_all_open_fds must enlarge its buffer, the
capacity grows additively, not geometrically: by 32 per step while below
256 (capacities 32, 64, ..., 256) and by a fixed 256 per step afterwards
(capacities 256, 512, 768, ...); and on allocation failure, whether of the
initial calloc or of an enlargement realloc at any current capacity, the
function returns no list (the underlying OS error is left in errno by the
failed allocator). -/
theorem get_all_open_fds_growth_additive :
    (∀ k, k ≤ 6 → caps (k + 1) = caps k + 32) ∧
    (∀ k, 7 ≤ k → caps (k + 1) = caps k + 256) ∧
    (∀ k, k ≤ 7 → caps k = 32 * (k + 1)) ∧
    (∀ k, 7 ≤ k → caps k = 256 * (k - 6)) ∧
    (∀ openFds max_fd allocOk, allocOk 32 = false →
      get_all_open_fds openFds max_fd allocOk = none) ∧
    (∀ (openFds allocOk : Nat → Bool) (fuel fd idx narray : Nat)
        (acc : List Nat),
      allocOk (grow_narray narray) = false → idx + 1 ≤ narray →
      narray - idx ≤ List.countP openFds (List.range' fd fuel) →
      gaofLoop openFds allocOk fuel fd idx narray acc = none) ∧
    (∀ (openFds : Nat → Bool) (max_fd : Nat) (allocOk : Nat → Bool),
      allocOk 32 = true → allocOk 64 = false →
      32 ≤ List.countP openFds (List.range max_fd) →
      get_all_open_fds openFds max_fd allocOk = none) := by
  have hclosed_low : ∀ k, k ≤ 7 → caps k = 32 * (k + 1) := by
    intro k hk
    interval_cases k <;> decide
  have hclosed_high : ∀ k, 7 ≤ k → caps k = 256 * (k - 6) := by
    intro k hk
    obtain ⟨j, rfl⟩ : ∃ j, k = 7 + j := ⟨k - 7, by omega⟩
    rw [caps_seven_add]
    congr 1
    omega
  refine ⟨?_, ?_, hclosed_low, hclosed_high, ?_, ?_, ?_⟩
  · intro k hk
    show grow_narray (caps k) = caps k + 32
    unfold grow_narray
    rw [if_pos]
    rw [hclosed_low k (by omega)]
    omega
  · intro k hk
    show grow_narray (caps k) = caps k + 256
    unfold grow_narray
    rw [if_neg]
    rw [hclosed_high k hk]
    have : 256 * 1 ≤ 256 * (k - 6) := Nat.mul_le_mul_left 256 (by omega)
    omega
  · intro openFds max_fd allocOk hfail
    unfold get_all_open_fds
    rw [hfail]
    simp
  · exact fun openFds allocOk => gaofLoop_growth_alloc_fail openFds allocOk
  · intro openFds max_fd allocOk hinit hfail64 hcount
    unfold get_all_open_fds
    rw [if_pos hinit]
    have hgrow : grow_narray 32 = 64 := by decide
    apply gaofLoop_growth_alloc_fail openFds allocOk max_fd 0 0 32 []
    · rw [hgrow]; exact hfail64
    · omega
    · rw [List.range_eq_range'] at hcount
      omega

/-- Witness for get_all_open_fds_growth_additive: the first enlargement is
32 to 64, the enlargement after 256 is by 256, a failing initial
allocation yields no list, and with 40 open descriptors but every
enlargement allocation failing (only the initial capacity 32 succeeds)
the scan also yields no list. -/
theorem get_all_open_fds_growth_additive_witness :
    caps 1 = caps 0 + 32 ∧ caps 8 = caps 7 + 256 ∧
    get_all_open_fds (fun _ => false) 4 (fun _ => false) = none ∧
    get_all_open_fds (fun _ => true) 40 (fun n => n == 32) = none :=
  ⟨get_all_open_fds_growth_additive.1 0 (by omega),
   get_all_open_fds_growth_additive.2.1 7 (by omega),
   get_all_open_fds_growth_additive.2.2.2.2.1 (fun _ => false) 4
     (fun _ => false) rfl,
   get_all_open_fds_growth_additive.2.2.2.2.2.2 (fun _ => true) 40
     (fun n => n == 32) rfl rfl (by decide)⟩

/- ------------------------------------------------------------------
   Reap Coordinator (exechelp-posix.c lines 605-838).

   Statuses are the raw wait statuses of waitpid; on the targeted platform
   WIFEXITED(s) is (s and 0x7f) == 0 and WEXITSTATUS(s) is (s >> 8) and
   0xff, which for the stored (non-negative) statuses equal the euclidean
   remainder and quotient forms below.  Results of the waitpid calls are
   passed in as explicit values (single wait) or as an event trace (batch
   wait), since they depend on the OS.
   ------------------------------------------------------------------ -/

/-- Result of one waitpid call: failure with an errno (after the EINTR
retry loop), 0 (WNOHANG, nothing exited yet), or a reaped status. -/
inductive WaitpidRes where
  | werr (errno : Nat)
  | wzero
  | wstatus (status : Int)
  deriving DecidableEq, Repr

/-- WIFEXITED of a raw wait status. -/
def wifexited (s : Int) : Bool := s.emod 128 == 0

/-- WEXITSTATUS of a raw wait status. -/
def wexitstatus (s : Int) : Int := (s.ediv 256).emod 256

/-- Model of gnupg_wait_process (lines 664-720).  hasSlot tells whether
the caller passed a non-NULL r_exitcode; the returned Option Int is the
final content of that slot (none when no slot was supplied; the slot is
initialized to -1).  The hang flag only selects WNOHANG for the waitpid
call whose result is the res parameter. -/
def gnupg_wait_process (pid : Int) (hasSlot : Bool) (_hang : Bool)
    (res : WaitpidRes) : ErrCode × Option Int :=
  let slot0 : Option Int := if hasSlot then some (-1) else none
  if pid = -1 then
    (ErrCode.invValue, slot0)
  else
    match res with
    | WaitpidRes.werr e => (ErrCode.sysErr e, slot0)
    | WaitpidRes.wzero => (ErrCode.timeout, slot0)
    | WaitpidRes.wstatus s =>
      if wifexited s && (wexitstatus s == 127) then
        (ErrCode.configuration, slot0)
      else if wifexited s && !(wexitstatus s == 0) then
        (ErrCode.general, if hasSlot then some (wexitstatus s) else none)
      else if !(wifexited s) then
        (ErrCode.general, slot0)
      else
        (ErrCode.ok, if hasSlot then some 0 else none)

/-- Exit-record cache insertion, store_result (lines 625-640): prepend the
new record.  Its malloc failure is handled at the call site in the batch
wait loop. -/
def store_result (cache : List (Int × Int)) (pid status : Int) :
    List (Int × Int) :=
  (pid, status) :: cache

/-- Exit-record cache lookup, get_result (lines 643-660): unlink the first
entry with the given pid and return its status together with the remaining
cache; none when no entry matches. -/
def get_result (pid : Int) : List (Int × Int) → Option (Int × List (Int × Int))
  | [] => none
  | c :: rest =>
    if c.1 = pid then
      some (c.2, rest)
    else
      match get_result pid rest with
      | some (st, rest2) => some (st, c :: rest2)
      | none => none

/-- Linear pid search of the batch wait loop (for i: if pid == pids[i]
break): index of the first occurrence, none when the pid is not in the
requested set. -/
def findPidIdx (pid : Int) : List Int → Option Nat
  | [] => none
  | x :: rest => if x = pid then some 0 else (findPidIdx pid rest).map (· + 1)

/-- First phase of gnupg_wait_processes (lines 738-755): per requested pid,
skip the invalid pid -1 with slot -1, otherwise drain the cache; returns
the remaining cache, the result slots, and the number of still-unresolved
pids (left). -/
def resolveFromCache :
    List (Int × Int) → List Int → List (Int × Int) × List Int × Nat
  | cache, [] => (cache, [], 0)
  | cache, pid :: rest =>
    if pid = -1 then
      let r := resolveFromCache cache rest
      (r.1, -1 :: r.2.1, r.2.2)
    else
      match get_result pid cache with
      | some (st, cache1) =>
        let r := resolveFromCache cache1 rest
        (r.1, st :: r.2.1, r.2.2)
      | none =>
        let r := resolveFromCache cache rest
        (r.1, -1 :: r.2.1, r.2.2 + 1)

/-- One observed result of the non-selective waitpid (-1, ...) call in the
batch wait loop.  The allocOk flag of a reaped event tells whether the
store_result allocation would succeed, should the result need storing. -/
inductive WEvent where
  | werr (errno : Nat)
  | wnone
  | wpid (pid status : Int) (allocOk : Bool)
  deriving DecidableEq, Repr

/-- Batch wait loop of gnupg_wait_processes (lines 757-807), consuming a
trace of waitpid results while unresolved pids remain.  Returns the error
code the loop ends with, the final cache, the result slots, and the number
of pids still unresolved.  A reaped pid outside the requested set is stored
in the cache (errno 12, ENOMEM, when that allocation fails); a reaped
requested pid whose slot is already filled stops the batch with a general
error. -/
def waitLoop (pids : List Int) :
    List WEvent → List (Int × Int) → List Int → Nat →
    ErrCode × List (Int × Int) × List Int × Nat
  | _, cache, codes, 0 => (ErrCode.ok, cache, codes, 0)
  | [], cache, codes, left => (ErrCode.ok, cache, codes, left)
  | ev :: evs, cache, codes, left + 1 =>
    match ev with
    | WEvent.werr e => (ErrCode.sysErr e, cache, codes, left + 1)
    | WEvent.wnone => (ErrCode.timeout, cache, codes, left + 1)
    | WEvent.wpid pid status allocOk =>
      match findPidIdx pid pids with
      | none =>
        if allocOk then
          waitLoop pids evs (store_result cache pid status) codes (left + 1)
        else
          (ErrCode.sysErr 12, cache, codes, left + 1)
      | some i =>
        if codes.getD i (-1) = -1 then
          waitLoop pids evs cache (codes.set i status) left
        else
          (ErrCode.general, cache, codes, left + 1)

/-- Final classification phase of gnupg_wait_processes (lines 809-834),
threading the error-code variable over the slots left to right.  dummy is
true when the caller passed NULL r_exitcodes (codes only logged, slots of
the internal dummy array left as raw statuses). -/
def classifyAll (dummy : Bool) : List Int → ErrCode → ErrCode × List Int
  | [], ec => (ec, [])
  | c :: rest, ec =>
    if c = -1 then
      let r := classifyAll dummy rest ec
      (r.1, c :: r.2)
    else if wifexited c && (wexitstatus c == 127) then
      let r := classifyAll dummy rest ErrCode.configuration
      (r.1, c :: r.2)
    else if wifexited c && !(wexitstatus c == 0) then
      let r := classifyAll dummy rest ErrCode.general
      (r.1, (if dummy then c else wexitstatus c) :: r.2)
    else if !(wifexited c) then
      let r := classifyAll dummy rest ErrCode.general
      (r.1, c :: r.2)
    else
      let r := classifyAll dummy rest ec
      (r.1, c :: r.2)

/-- Model of gnupg_wait_processes (lines 723-838): drain the cache, run the
wait loop on the event trace, classify the slots.  Returns the final error
code, cache and slots.  The allocation of the internal dummy array for a
NULL r_exitcodes argument is assumed to succeed. -/
def gnupg_wait_processes (pids : List Int) (evs : List WEvent)
    (cache0 : List (Int × Int)) (dummy : Bool) :
    ErrCode × List (Int × Int) × List Int :=
  let r1 := resolveFromCache cache0 pids
  let r2 := waitLoop pids evs r1.1 r1.2.1 r1.2.2
  let r3 := classifyAll dummy r2.2.2.1 r2.1
  (r3.1, r2.2.1, r3.2)

theorem findPidIdx_eq_none (pid : Int) :
    ∀ pids : List Int, pid ∉ pids → findPidIdx pid pids = none := by
  intro pids h
  induction pids with
  | nil => rfl
  | cons x rest ih =>
    simp only [List.mem_cons, not_or] at h
    have hxp : ¬ (x = pid) := fun he => h.1 he.symm
    simp [findPidIdx, hxp, ih h.2]

theorem get_result_eq_none_iff (pid : Int) :
    ∀ cache : List (Int × Int),
      get_result pid cache = none ↔ ∀ c ∈ cache, c.1 ≠ pid := by
  intro cache
  induction cache with
  | nil => simp [get_result]
  | cons c rest ih =>
    by_cases hc : c.1 = pid
    · simp [get_result, hc]
    · simp only [get_result, if_neg hc, List.mem_cons]
      cases hrest : get_result pid rest with
      | some p =>
        simp only [hrest]
        constructor
        · intro h; exact absurd h (by simp)
        · intro h
          have : get_result pid rest = none := by
            rw [ih]; intro d hd; exact h d (Or.inr hd)
          rw [this] at hrest; exact Option.noConfusion hrest
      | none =>
        simp only [hrest, true_iff]
        intro d hd
        rcases hd with rfl | hd
        · exact hc
        · exact (ih.mp hrest) d hd

theorem get_result_unique_consume (pid : Int) :
    ∀ (cache cache1 : List (Int × Int)) (st1 : Int),
      List.countP (fun c => c.1 == pid) cache ≤ 1 →
      get_result pid cache = some (st1, cache1) →
      get_result pid cache1 = none := by
  intro cache
  induction cache with
  | nil => intro cache1 st1 _ h; simp [get_result] at h
  | cons c rest ih =>
    intro cache1 st1 hcount hget
    by_cases hc : c.1 = pid
    · simp only [get_result, if_pos hc, Option.some.injEq, Prod.mk.injEq] at hget
      obtain ⟨-, rfl⟩ := hget
      rw [get_result_eq_none_iff]
      have hcnt : List.countP (fun c => c.1 == pid) rest = 0 := by
        rw [List.countP_cons] at hcount
        simp only [hc, beq_self_eq_true, if_pos] at hcount
        omega
      intro d hd
      have := List.countP_eq_zero.mp hcnt d hd
      simpa using this
    · simp only [get_result, if_neg hc] at hget
      cases hrest : get_result pid rest with
      | none => rw [hrest] at hget; exact Option.noConfusion hget
      | some p =>
        rw [hrest] at hget
        obtain ⟨st2, rest2⟩ := p
        simp only [Option.some.injEq, Prod.mk.injEq] at hget
        obtain ⟨-, rfl⟩ := hget
        have hcnt : List.countP (fun c => c.1 == pid) rest ≤ 1 := by
          rw [List.countP_cons] at hcount
          omega
        have hnone := ih rest2 st2 hcnt hrest
        simp only [get_result, if_neg hc, hnone]

/-- C2: in the batch wait loop, a reaped pid outside the requested set is
inserted into the process-wide cache as a new exit record (given the
store allocation succeeds); a stored record is found and removed by the
next lookup for its pid; and once the single record of a pid has been
consumed, a second lookup for that pid no longer finds it. -/
theorem wait_processes_cache_protocol (pid st : Int) (pids : List Int) :
    (∀ (evs : List WEvent) (cache : List (Int × Int)) (codes : List Int)
        (left : Nat), pid ∉ pids →
      waitLoop pids (WEvent.wpid pid st true :: evs) cache codes (left + 1)
        = waitLoop pids evs (store_result cache pid st) codes (left + 1)) ∧
    (∀ cache : List (Int × Int),
      get_result pid (store_result cache pid st) = some (st, cache)) ∧
    (∀ (cache cache1 : List (Int × Int)) (st1 : Int),
      List.countP (fun c => c.1 == pid) cache ≤ 1 →
      get_result pid cache = some (st1, cache1) →
      get_result pid cache1 = none) := by
  refine ⟨?_, ?_, get_result_unique_consume pid⟩
  · intro evs cache codes left hnot
    have hfind : findPidIdx pid pids = none := findPidIdx_eq_none pid pids hnot
    simp [waitLoop, hfind]
  · intro cache
    simp [get_result, store_result]

/-- Witness for wait_processes_cache_protocol: pid 7 is not among the
requested pids 3 and 4, so its status 11 goes to the cache; the stored
record is consumed by one lookup and gone for the next. -/
theorem wait_processes_cache_protocol_witness :
    (waitLoop [3, 4] [WEvent.wpid 7 11 true] [] [-1, -1] (1 + 1)
      = waitLoop [3, 4] [] (store_result [] 7 11) [-1, -1] (1 + 1)) ∧
    (get_result 7 (store_result [] 7 11) = some (11, [])) ∧
    (get_result 7 [] = none) :=
  ⟨(wait_processes_cache_protocol 7 11 [3, 4]).1 [] [] [-1, -1] 1 (by decide),
   (wait_processes_cache_protocol 7 11 [3, 4]).2.1 [],
   (wait_processes_cache_protocol 7 11 [3, 4]).2.2 [(7, 11)] [] 11
     (by decide) (by decide)⟩

/-- C3: when the non-selective wait returns a requested pid whose result
slot is already filled (not -1), the batch wait loop stops at once with a
general error: the cache, the slots and the count of unresolved pids are
returned unchanged and the rest of the trace is never consumed. -/
theorem wait_processes_pid_reuse_fatal (pids : List Int) (pid st : Int)
    (i : Nat) (codes : List Int)
    (hfind : findPidIdx pid pids = some i)
    (hfilled : ¬ (codes.getD i (-1) = -1)) :
    ∀ (evs : List WEvent) (cache : List (Int × Int)) (left : Nat)
      (allocOk : Bool),
      waitLoop pids (WEvent.wpid pid st allocOk :: evs) cache codes (left + 1)
        = (ErrCode.general, cache, codes, left + 1) := by
  intro evs cache left allocOk
  simp only [waitLoop, hfind]
  rw [if_neg hfilled]

/-- Witness for wait_processes_pid_reuse_fatal: requested pids 3 and 4,
slot of pid 4 already filled with status 9472; the loop stops with a
general error and consumes nothing further. -/
theorem wait_processes_pid_reuse_fatal_witness :
    waitLoop [3, 4] [WEvent.wpid 4 0 true] [] [-1, 9472] (0 + 1)
      = (ErrCode.general, [], [-1, 9472], 0 + 1) :=
  wait_processes_pid_reuse_fatal [3, 4] 4 0 1 [-1, 9472] (by decide) (by decide)
    [] [] 0 true

/-- C4: classification of a reaped status by the single-pid wait.  A
normal exit with code 0 is success (0 stored in a supplied result slot); a
normal exit with code 127 is a configuration error; a normal exit with any
other nonzero code is a general error whose code is stored in the result
slot when one was supplied (otherwise only logged, the slot value none);
an abnormal termination is a general error with no code (slot left at its
initial -1). -/
theorem wait_process_classification (pid : Int) (hpid : ¬ (pid = -1))
    (hasSlot : Bool) (hang : Bool) (s : Int) :
    (wifexited s = true → wexitstatus s = 0 →
      gnupg_wait_process pid hasSlot hang (WaitpidRes.wstatus s)
        = (ErrCode.ok, if hasSlot then some 0 else none)) ∧
    (wifexited s = true → wexitstatus s = 127 →
      gnupg_wait_process pid hasSlot hang (WaitpidRes.wstatus s)
        = (ErrCode.configuration, if hasSlot then some (-1) else none)) ∧
    (wifexited s = true → ¬ (wexitstatus s = 0) → ¬ (wexitstatus s = 127) →
      gnupg_wait_process pid hasSlot hang (WaitpidRes.wstatus s)
        = (ErrCode.general, if hasSlot then some (wexitstatus s) else none)) ∧
    (wifexited s = false →
      gnupg_wait_process pid hasSlot hang (WaitpidRes.wstatus s)
        = (ErrCode.general, if hasSlot then some (-1) else none)) := by
  refine ⟨?_, ?_, ?_, ?_⟩
  · intro h1 h2
    simp [gnupg_wait_process, hpid, h1, h2]
  · intro h1 h2
    simp [gnupg_wait_process, hpid, h1, h2]
  · intro h1 h2 h3
    simp [gnupg_wait_process, hpid, h1, h2, h3]
  · intro h1
    simp [gnupg_wait_process, hpid, h1]

/-- Witness for wait_process_classification: status 9472 encodes a normal
exit with code 37, classified as a general error carrying code 37 in the
supplied result slot. -/
theorem wait_process_classification_witness :
    gnupg_wait_process 5 true true (WaitpidRes.wstatus 9472)
      = (ErrCode.general, some 37) := by
  have h := (wait_process_classification 5 (by decide) true true 9472).2.2.1
    (by decide) (by decide) (by decide)
  simpa using h

/- ------------------------------------------------------------------
   Process Handle (struct gnupg_process, exechelp-posix.c lines 921-930)
   and its operations: gnupg_process_wait (1504-1538), gnupg_process_release
   (1540-1553), gnupg_process_get_fds (1343-1365), spawn_detached
   (1033-1105) and the detached branch of gnupg_process_spawn (1107-1167).
   ------------------------------------------------------------------ -/

/-- The process handle: program name, terminated flag, pid and the three
descriptor slots (-1 meaning unowned), plus the raw wait status. -/
structure GnupgProcess where
  pgmname : String
  terminated : Bool
  pid : Int
  fd_in : Int
  fd_out : Int
  fd_err : Int
  wstatus : Int
  deriving DecidableEq, Repr

/-- Model of gnupg_process_wait: an already-terminated handle returns 0 at
once without any OS wait; otherwise the handle is updated from the waitpid
result given as res.  The third component records whether an OS waitpid
was performed. -/
def gnupg_process_wait (p : GnupgProcess) (_hang : Bool) (res : WaitpidRes) :
    ErrCode × GnupgProcess × Bool :=
  if p.terminated then
    (ErrCode.ok, p, false)
  else
    match res with
    | WaitpidRes.werr e => (ErrCode.sysErr e, p, true)
    | WaitpidRes.wzero => (ErrCode.timeout, p, true)
    | WaitpidRes.wstatus s =>
      (ErrCode.ok, { p with terminated := true, wstatus := s }, true)

/-- OS-level actions a handle operation can perform. -/
inductive SysEv where
  | kill (pid : Int) (sig : Nat)
  | waitpid (pid : Int)
  | closefd (fd : Int)
  | free
  deriving DecidableEq, Repr

/-- OS calls performed by gnupg_process_wait: none when the terminated flag
is already set (early return), one waitpid otherwise. -/
def process_wait_syscalls (p : GnupgProcess) : List SysEv :=
  if p.terminated then [] else [SysEv.waitpid p.pid]

/-- Model of gnupg_process_release as the sequence of OS actions it
performs.  The source tests (process->terminated): only when the flag is
ALREADY set does it call gnupg_process_terminate (kill with SIGTERM = 15)
and gnupg_process_wait (which then performs no OS wait, the flag being
set); in every case it then frees the handle.  No descriptor is ever
closed. -/
def gnupg_process_release (p : GnupgProcess) : List SysEv :=
  (if p.terminated then SysEv.kill p.pid 15 :: process_wait_syscalls p
   else []) ++ [SysEv.free]

/-- Model of gnupg_process_get_fds: each requested slot (non-NULL result
pointer) yields the current slot value and the slot is set to the unowned
value -1; flags are ignored by the source. -/
def gnupg_process_get_fds (p : GnupgProcess) (r_in r_out r_err : Bool) :
    ErrCode × (Option Int × Option Int × Option Int) × GnupgProcess :=
  let s1 := if r_in then (some p.fd_in, { p with fd_in := -1 }) else (none, p)
  let s2 := if r_out then (some s1.2.fd_out, { s1.2 with fd_out := -1 })
            else (none, s1.2)
  let s3 := if r_err then (some s2.2.fd_err, { s2.2 with fd_err := -1 })
            else (none, s2.2)
  (ErrCode.ok, (s1.1, s2.1, s3.1), s3.2)

/-- Outcomes of the OS calls made by spawn_detached: the uid/euid
comparison, the access X_OK check, the first fork, and the waitpid on the
first child (the double fork and exec happen in the children). -/
structure DetachOutcome where
  uidMatchesEuid : Bool
  accessOk : Bool
  accessErrno : Nat
  forkOk : Bool
  forkErrno : Nat
  waitpidOk : Bool
  waitpidErrno : Nat
  deriving DecidableEq, Repr

/-- Model of spawn_detached (parent side).  On the error paths before and
at fork the handle is freed (none); when the waitpid on the first child
fails the error is returned with the handle fields never filled in; on
success the handle is marked terminated with pid -1, all descriptor slots
-1 and wait status -1. -/
def spawn_detached (p : GnupgProcess) (env : DetachOutcome) :
    ErrCode × Option GnupgProcess :=
  if !env.uidMatchesEuid then
    (ErrCode.bug, none)
  else if !env.accessOk then
    (ErrCode.sysErr env.accessErrno, none)
  else if !env.forkOk then
    (ErrCode.sysErr env.forkErrno, none)
  else if !env.waitpidOk then
    (ErrCode.sysErr env.waitpidErrno, some p)
  else
    (ErrCode.ok, some { p with pid := -1, fd_in := -1, fd_out := -1,
                               fd_err := -1, wstatus := -1,
                               terminated := true })

/-- Spawn flag bits of the gnupg_process interface. -/
structure SpawnFlags where
  stdin_pipe : Bool
  stdin_null : Bool
  stdout_pipe : Bool
  stdout_null : Bool
  stderr_pipe : Bool
  stderr_null : Bool
  stdinout_socketpair : Bool
  detached : Bool
  deriving DecidableEq, Repr

/-- Modelled from the spec: the mask GNUPG_PROCESS_STDFDS_SETTING lives in
common/exechelp.h, which is not part of this source unit; per the flags
surface of the spec it is the union of the stdio wiring flag bits, which
are mutually exclusive with detached mode. -/
def SpawnFlags.stdfds_setting (f : SpawnFlags) : Bool :=
  f.stdin_pipe || f.stdin_null || f.stdout_pipe || f.stdout_null ||
  f.stderr_pipe || f.stderr_null || f.stdinout_socketpair

/-- Detached branch of gnupg_process_spawn: with any stdio wiring flag the
spawn is refused with an invalid-flag error, otherwise the freshly
allocated (zeroed) handle p0 is passed to spawn_detached. -/
def gnupg_process_spawn_detached (flags : SpawnFlags) (p0 : GnupgProcess)
    (env : DetachOutcome) : ErrCode × Option GnupgProcess :=
  if flags.stdfds_setting then
    (ErrCode.invFlag, none)
  else
    spawn_detached p0 env

/-- C1: releasing a handle whose terminated flag is false frees it without
sending any signal and without any OS wait.  The source tests
(process->terminated) where the claimed behaviour needs the negation, so
the termination signal and the blocking wait happen only for handles that
are already terminated, and a released, not-yet-terminated handle is freed
unreaped. -/
theorem release_of_unterminated_skips_kill_and_wait :
    gnupg_process_release
      { pgmname := "gpg", terminated := false, pid := 1234,
        fd_in := -1, fd_out := -1, fd_err := -1, wstatus := -1 }
      = [SysEv.free] := rfl

/-- C7: a non-blocking wait on a handle of a still-running child (the OS
wait with WNOHANG returned 0) yields the distinguished timeout condition,
not a generic error, and leaves the handle, in particular its terminated
flag (false) and stored wait status, unchanged; likewise the pid-based
gnupg_wait_process yields the timeout condition. -/
theorem nonblocking_wait_still_running (p : GnupgProcess)
    (hterm : p.terminated = false) (pid : Int) (hpid : ¬ (pid = -1))
    (hasSlot : Bool) :
    (gnupg_process_wait p false WaitpidRes.wzero
      = (ErrCode.timeout, p, true)) ∧
    (gnupg_wait_process pid hasSlot false WaitpidRes.wzero
      = (ErrCode.timeout, if hasSlot then some (-1) else none)) := by
  constructor
  · simp [gnupg_process_wait, hterm]
  · simp [gnupg_wait_process, hpid]

/-- Witness for nonblocking_wait_still_running on a concrete live handle
and pid 9. -/
theorem nonblocking_wait_still_running_witness :
    (gnupg_process_wait
      { pgmname := "gpg", terminated := false, pid := 9,
        fd_in := 3, fd_out := 4, fd_err := 5, wstatus := -1 }
      false WaitpidRes.wzero
      = (ErrCode.timeout,
         { pgmname := "gpg", terminated := false, pid := 9,
           fd_in := 3, fd_out := 4, fd_err := 5, wstatus := -1 }, true)) ∧
    (gnupg_wait_process 9 true false WaitpidRes.wzero
      = (ErrCode.timeout, some (-1))) :=
  nonblocking_wait_still_running
    { pgmname := "gpg", terminated := false, pid := 9,
      fd_in := 3, fd_out := 4, fd_err := 5, wstatus := -1 }
    rfl 9 (by decide) true

/-- C10: waiting on a handle whose terminated flag is already set returns
success immediately for every blocking or non-blocking mode and every OS
wait outcome, performs no OS wait, and leaves the handle (terminated flag
and stored wait status) unchanged. -/
theorem wait_terminated_idempotent (p : GnupgProcess)
    (hterm : p.terminated = true) (hang : Bool) (res : WaitpidRes) :
    gnupg_process_wait p hang res = (ErrCode.ok, p, false) := by
  simp [gnupg_process_wait, hterm]

/-- Witness for wait_terminated_idempotent on a concrete terminated
handle. -/
theorem wait_terminated_idempotent_witness :
    gnupg_process_wait
      { pgmname := "gpg", terminated := true, pid := 9,
        fd_in := -1, fd_out := -1, fd_err := -1, wstatus := 0 }
      true (WaitpidRes.wstatus 256)
      = (ErrCode.ok,
         { pgmname := "gpg", terminated := true, pid := 9,
           fd_in := -1, fd_out := -1, fd_err := -1, wstatus := 0 }, false) :=
  wait_terminated_idempotent
    { pgmname := "gpg", terminated := true, pid := 9,
      fd_in := -1, fd_out := -1, fd_err := -1, wstatus := 0 }
    rfl true (WaitpidRes.wstatus 256)

/-- C8: taking the descriptors of a handle returns each requested slot
exactly once, clearing it internally to the unowned value -1; a second
take returns -1 (already taken) for every requested slot; and a subsequent
release closes no descriptor, in particular not the transferred ones. -/
theorem get_fds_transfer_once (p : GnupgProcess) :
    (gnupg_process_get_fds p true true true
      = (ErrCode.ok, (some p.fd_in, some p.fd_out, some p.fd_err),
         { p with fd_in := -1, fd_out := -1, fd_err := -1 })) ∧
    (gnupg_process_get_fds { p with fd_in := -1, fd_out := -1, fd_err := -1 }
        true true true
      = (ErrCode.ok, (some (-1), some (-1), some (-1)),
         { p with fd_in := -1, fd_out := -1, fd_err := -1 })) ∧
    (∀ fd : Int, SysEv.closefd fd ∉
      gnupg_process_release
        { p with fd_in := -1, fd_out := -1, fd_err := -1 }) := by
  refine ⟨rfl, rfl, ?_⟩
  intro fd
  unfold gnupg_process_release process_wait_syscalls
  by_cases h : p.terminated <;> simp [h]

/-- C9: a successful detached spawn through the detached branch of
gnupg_process_spawn yields a handle that is already terminated before
spawn returns, with the no-process sentinel -1 as pid, all three
descriptor slots unowned (-1) and wait status -1. -/
theorem detached_spawn_returns_terminated (flags : SpawnFlags)
    (p0 : GnupgProcess) (env : DetachOutcome) (q : GnupgProcess)
    (hsucc : gnupg_process_spawn_detached flags p0 env
      = (ErrCode.ok, some q)) :
    q.terminated = true ∧ q.pid = -1 ∧ q.fd_in = -1 ∧ q.fd_out = -1 ∧
    q.fd_err = -1 ∧ q.wstatus = -1 := by
  unfold gnupg_process_spawn_detached spawn_detached at hsucc
  split at hsucc
  · exact absurd hsucc (by simp)
  · split at hsucc
    · exact absurd hsucc (by simp)
    · split at hsucc
      · exact absurd hsucc (by simp)
      · split at hsucc
        · exact absurd hsucc (by simp)
        · split at hsucc
          · exact absurd hsucc (by simp)
          · simp only [Prod.mk.injEq, Option.some.injEq] at hsucc
            obtain ⟨-, rfl⟩ := hsucc
            simp

/-- Witness for detached_spawn_returns_terminated: all OS steps succeed on
a freshly zeroed handle with no stdio wiring flags. -/
theorem detached_spawn_returns_terminated_witness :
    ({ pgmname := "gpg", terminated := true, pid := -1, fd_in := -1,
       fd_out := -1, fd_err := -1, wstatus := -1 } : GnupgProcess).terminated
        = true ∧
    ({ pgmname := "gpg", terminated := true, pid := -1, fd_in := -1,
       fd_out := -1, fd_err := -1, wstatus := -1 } : GnupgProcess).pid = -1 ∧
    ({ pgmname := "gpg", terminated := true, pid := -1, fd_in := -1,
       fd_out := -1, fd_err := -1, wstatus := -1 } : GnupgProcess).fd_in
        = -1 ∧
    ({ pgmname := "gpg", terminated := true, pid := -1, fd_in := -1,
       fd_out := -1, fd_err := -1, wstatus := -1 } : GnupgProcess).fd_out
        = -1 ∧
    ({ pgmname := "gpg", terminated := true, pid := -1, fd_in := -1,
       fd_out := -1, fd_err := -1, wstatus := -1 } : GnupgProcess).fd_err
        = -1 ∧
    ({ pgmname := "gpg", terminated := true, pid := -1, fd_in := -1,
       fd_out := -1, fd_err := -1, wstatus := -1 } : GnupgProcess).wstatus
        = -1 :=
  detached_spawn_returns_terminated
    { stdin_pipe := false, stdin_null := false, stdout_pipe := false,
      stdout_null := false, stderr_pipe := false, stderr_null := false,
      stdinout_socketpair := false, detached := true }
    { pgmname := "gpg", terminated := false, pid := 0, fd_in := 0,
      fd_out := 0, fd_err := 0, wstatus := 0 }
    { uidMatchesEuid := true, accessOk := true, accessErrno := 0,
      forkOk := true, forkErrno := 0, waitpidOk := true, waitpidErrno := 0 }
    _ rfl

end Exechelp
